import Mathlib

/-!
Verification of the statement-reconciliation core of CESSProject/polkadot
(statement-distribution vstaging request/response path) and of the
tuple-composed `ShouldExecute` XCM barrier.

The statement-distribution implementation itself is not present in the
repository snapshot; only its test file
`node/network/statement-distribution/src/vstaging/tests/requests.rs` is.
The Knowledge Store, Request Scheduler, Response Validator and
Rebroadcaster below are therefore modelled from the specification, with
one important constraint: wherever the in-repo test
`peer_reported_for_duplicate_statements` pins concrete observable
behaviour (which reputation events are emitted, in which order, and to
whom an accepted statement is rebroadcast), the model follows the test,
since the test is repository code and the authority on behaviour.

The `ShouldExecute`/`RejectReason` definitions are embedded directly from
`xcm/xcm-executor/src/traits/should_execute.rs`.
-/

namespace StatementDistribution

/-- Statement kinds, as in `CompactStatement`: `Seconded` or `Valid`. -/
inductive StatementKind where
  | Seconded
  | Valid
deriving DecidableEq, Repr

/-- A statement in a response, identified (within a candidate context) by
its validator index and kind.  Signature checking is external
cryptography; its outcome is carried as the boolean field `sig_valid`. -/
structure Statement where
  validator : Nat
  kind : StatementKind
  sig_valid : Bool
deriving DecidableEq, Repr

/-- A `StatementFilter` mask: a pair of fixed-size bitsets, one per
statement kind, indexed by position within the candidate's validator
group. -/
structure StatementFilter where
  seconded_in_group : List Bool
  validated_in_group : List Bool
deriving DecidableEq, Repr

/-- A blank mask for a group of the given size. -/
def StatementFilter.blank (n : Nat) : StatementFilter :=
  ⟨List.replicate n false, List.replicate n false⟩

/-- Whether a mask has the bit for group position `i` and kind `k` set. -/
def StatementFilter.mem (f : StatementFilter) (i : Nat) (k : StatementKind) : Bool :=
  match k with
  | .Seconded => (f.seconded_in_group[i]?).getD false
  | .Valid => (f.validated_in_group[i]?).getD false

/-- Set the bit for group position `i` and kind `k`. -/
def StatementFilter.set (f : StatementFilter) (i : Nat) (k : StatementKind) : StatementFilter :=
  match k with
  | .Seconded => { f with seconded_in_group := f.seconded_in_group.set i true }
  | .Valid => { f with validated_in_group := f.validated_in_group.set i true }

/-- Modelled from the spec: the Knowledge Store (implementation absent
from the snapshot), a per-candidate record of which (validator, kind)
pairs are known locally and which are known to be possessed by each
peer.  Entries are only ever added. -/
structure KnowledgeStore where
  localKnown : List (Nat × Nat × StatementKind)
  peerKnown : List (Nat × Nat × Nat × StatementKind)
deriving DecidableEq, Repr

/-- The empty Knowledge Store of a fresh relay parent. -/
def KnowledgeStore.empty : KnowledgeStore := ⟨[], []⟩

/-- Whether the statement (candidate `c`, validator `v`, kind `k`) is
locally known. -/
def KnowledgeStore.isKnownLocal (ks : KnowledgeStore) (c v : Nat) (k : StatementKind) : Bool :=
  decide ((c, v, k) ∈ ks.localKnown)

/-- Modelled from the spec: `record_local` marks a statement as locally
known; recording an already-known pair is a no-op, not an error. -/
def KnowledgeStore.record_local (ks : KnowledgeStore) (c v : Nat) (k : StatementKind) : KnowledgeStore :=
  if ks.isKnownLocal c v k then ks
  else { ks with localKnown := (c, v, k) :: ks.localKnown }

/-- Whether peer `p` is known to possess the statement (candidate `c`,
validator `v`, kind `k`). -/
def KnowledgeStore.is_known_by_peer (ks : KnowledgeStore) (p c v : Nat) (k : StatementKind) : Bool :=
  decide ((p, c, v, k) ∈ ks.peerKnown)

/-- Modelled from the spec: `record_peer` marks a statement as known by a
peer; idempotent like `record_local`. -/
def KnowledgeStore.record_peer (ks : KnowledgeStore) (p c v : Nat) (k : StatementKind) : KnowledgeStore :=
  if ks.is_known_by_peer p c v k then ks
  else { ks with peerKnown := (p, c, v, k) :: ks.peerKnown }

/-- Modelled from the spec: `mask_for` returns the snapshot of local
knowledge for candidate `c`, as a mask over the candidate's validator
group `group` (a list of validator indices in group order). -/
def KnowledgeStore.mask_for (ks : KnowledgeStore) (c : Nat) (group : List Nat) : StatementFilter :=
  ⟨group.map (fun v => ks.isKnownLocal c v .Seconded),
   group.map (fun v => ks.isKnownLocal c v .Valid)⟩

/-- The reputation events of the statement-distribution request path, as
asserted by the in-repo test (`BENEFIT_VALID_STATEMENT_FIRST`,
`BENEFIT_VALID_STATEMENT`, `BENEFIT_VALID_RESPONSE`,
`COST_UNREQUESTED_RESPONSE_STATEMENT`, ...), together with the
`duplicate-statement` and `invalid-signature` kinds named by the spec. -/
inductive ReputationEvent where
  | firstValidStatement
  | validStatement
  | validResponse
  | unrequestedResponseStatement
  | invalidSignature
  | malformedResponse
  | duplicateStatement
deriving DecidableEq, Repr

/-- The context of an outstanding `AttestedCandidateRequest`: the
requested candidate hash, the mask that was sent with the request, and
the candidate's validator group (validator indices in group order). -/
structure RequestCtx where
  candidate_hash : Nat
  mask : StatementFilter
  group : List Nat
deriving DecidableEq, Repr

/-- An `AttestedCandidateResponse` after successful decoding: the hash of
the claimed candidate receipt, the persisted validation data (opaque
here), and an ordered sequence of statements. -/
structure AttestedCandidateResponse where
  candidate_receipt_hash : Nat
  persisted_validation_data : Nat
  statements : List Statement
deriving DecidableEq, Repr

/-- Intermediate state of the Response Validator while it walks the
statements of one response in arrival order. -/
structure ProcState where
  store : KnowledgeStore
  received : StatementFilter
  events : List ReputationEvent
  accepted : List Statement
deriving DecidableEq, Repr

/-- Modelled from the spec: one step of the Response Validator
(implementation absent from the snapshot), processing a single statement
of a response.  Statements from validators outside the expected group,
statements already received earlier in this same response, and
statements the request mask already claimed are all discarded with an
`unrequested-response-statement` cost — the test
`peer_reported_for_duplicate_statements` pins this cost (not a separate
`duplicate-statement` cost) for within-response duplicates.  A bad
signature costs `invalid-signature`.  An accepted statement is recorded
as locally known and earns the plain `valid-statement` benefit, as the
test pins. -/
def process_statement (req : RequestCtx) (st : ProcState) (s : Statement) : ProcState :=
  match req.group.findIdx? (fun v => v == s.validator) with
  | none => { st with events := st.events ++ [.unrequestedResponseStatement] }
  | some i =>
    if st.received.mem i s.kind then
      { st with events := st.events ++ [.unrequestedResponseStatement] }
    else if req.mask.mem i s.kind then
      { st with events := st.events ++ [.unrequestedResponseStatement] }
    else if !s.sig_valid then
      { st with events := st.events ++ [.invalidSignature] }
    else
      { store := st.store.record_local req.candidate_hash s.validator s.kind,
        received := st.received.set i s.kind,
        events := st.events ++ [.validStatement],
        accepted := st.accepted ++ [s] }

/-- Outcome of handling a complete response: the updated Knowledge Store,
the reputation events in emission order, and the accepted statements
queued for rebroadcast. -/
structure ResponseOutcome where
  store : KnowledgeStore
  events : List ReputationEvent
  accepted : List Statement
deriving DecidableEq, Repr

/-- Modelled from the spec: the Response Validator (implementation absent
from the snapshot).  `none` stands for a response that failed to decode;
a decoded response whose candidate receipt hash differs from the
requested hash is likewise rejected in full with one
`malformed-response` cost and no statement processing.  Otherwise the
statements are processed in order and one `valid-response` benefit is
appended after all per-statement events. -/
def handle_response (ks : KnowledgeStore) (req : RequestCtx)
    (resp : Option AttestedCandidateResponse) : ResponseOutcome :=
  match resp with
  | none => ⟨ks, [.malformedResponse], []⟩
  | some r =>
    if r.candidate_receipt_hash = req.candidate_hash then
      let final := r.statements.foldl (process_statement req)
        ⟨ks, StatementFilter.blank req.group.length, [], []⟩
      ⟨final.store, final.events ++ [.validResponse], final.accepted⟩
    else ⟨ks, [.malformedResponse], []⟩

/-- A connected peer as the Rebroadcaster sees it: its identifier,
whether the relevant relay parent is in its view, and whether it is
group/topology eligible (eligibility is decided by an external
collaborator). -/
structure PeerInfo where
  peer : Nat
  has_relay_parent_in_view : Bool
  eligible : Bool
deriving DecidableEq, Repr

/-- Modelled from the spec: the Rebroadcaster's `forward` (implementation
absent from the snapshot).  Recipients are the connected peers with the
relay parent in view, not already knowing the statement according to the
Knowledge Store, and eligible; after sending, recipients are marked
known-by-peer.  Note that per the in-repo test, a statement accepted
from a response is not marked as known by the responding peer, so that
peer may be among the recipients. -/
def forward (ks : KnowledgeStore) (peers : List PeerInfo) (c v : Nat)
    (k : StatementKind) : List Nat × KnowledgeStore :=
  let recipients := (peers.filter (fun p =>
    p.has_relay_parent_in_view && p.eligible && !(ks.is_known_by_peer p.peer c v k))).map
      (fun p => p.peer)
  (recipients, recipients.foldl (fun s p => s.record_peer p c v k) ks)

/-- An outgoing `AttestedCandidateRequest`: the candidate hash and the
mask snapshot attached at send time. -/
structure AttestedCandidateRequest where
  candidate_hash : Nat
  mask : StatementFilter
deriving DecidableEq, Repr

/-- The Request Scheduler's state: the set of outstanding (peer,
candidate) requests. -/
structure SchedulerState where
  outstanding : List (Nat × Nat)
deriving DecidableEq, Repr

/-- Whether local knowledge of candidate `c` is incomplete: at least one
group member's statement kind is unknown. -/
def knowledge_incomplete (ks : KnowledgeStore) (c : Nat) (group : List Nat) : Bool :=
  group.any (fun v => !(ks.isKnownLocal c v .Seconded) || !(ks.isKnownLocal c v .Valid))

/-- Modelled from the spec: the Request Scheduler's `maybe_request`
(implementation absent from the snapshot).  A request to `peer` for
candidate `c` is constructed only if local knowledge is incomplete, no
request for (peer, c) is outstanding, and the peer has the candidate's
relay parent in view; the attached mask is the atomic `mask_for`
snapshot. -/
def maybe_request (st : SchedulerState) (ks : KnowledgeStore) (c : Nat) (group : List Nat)
    (peer : Nat) (peer_has_view : Bool) : SchedulerState × Option (Nat × AttestedCandidateRequest) :=
  if knowledge_incomplete ks c group
      && !(decide ((peer, c) ∈ st.outstanding))
      && peer_has_view then
    (⟨(peer, c) :: st.outstanding⟩, some (peer, ⟨c, ks.mask_for c group⟩))
  else (st, none)

/-- The Knowledge-Store-mutating operations of the core, for stating
store monotonicity over any single operation. -/
inductive StoreOp where
  | recordLocal (c v : Nat) (k : StatementKind)
  | recordPeer (p c v : Nat) (k : StatementKind)
  | handleResponse (req : RequestCtx) (resp : Option AttestedCandidateResponse)
  | forwardStatement (peers : List PeerInfo) (c v : Nat) (k : StatementKind)

/-- Apply a store operation to a Knowledge Store. -/
def StoreOp.apply (ks : KnowledgeStore) : StoreOp → KnowledgeStore
  | .recordLocal c v k => ks.record_local c v k
  | .recordPeer p c v k => ks.record_peer p c v k
  | .handleResponse req resp => (handle_response ks req resp).store
  | .forwardStatement peers c v k => (forward ks peers c v k).2

/-! Concrete scenario mirroring the in-repo test
`peer_reported_for_duplicate_statements`: a group of three validators
(indices 0, 1, 2 standing for `v_a`, `v_b` and the local validator),
candidate hash 7, peer identifiers 0, 1, 2 standing for `peer_a`,
`peer_b`, `peer_c`.  Validator 0's `Seconded` statement has arrived by
gossip, so the request mask claims it; the response from peer 0 carries
validator 1's `Seconded` statement twice. -/

/-- The demo validator group, in group order. -/
def demo_group : List Nat := [0, 1, 2]

/-- Local knowledge after validator 0's gossiped `Seconded` statement. -/
def demo_store : KnowledgeStore := KnowledgeStore.empty.record_local 7 0 .Seconded

/-- The outstanding request context: candidate 7 with the atomic mask
snapshot of `demo_store`. -/
def demo_req : RequestCtx := ⟨7, demo_store.mask_for 7 demo_group, demo_group⟩

/-- Validator 1's `Seconded` statement with a valid signature. -/
def demo_statement_b : Statement := ⟨1, .Seconded, true⟩

/-- The response of peer 0 containing the same statement twice. -/
def demo_response : AttestedCandidateResponse := ⟨7, 0, [demo_statement_b, demo_statement_b]⟩

/-- The Knowledge Store after peer 0's duplicate-bearing response. -/
def demo_store_after : KnowledgeStore := (handle_response demo_store demo_req (some demo_response)).store

/-- The connected peers, as in the test: peer 0 in group with the relay
parent in view, peer 1 in group without the relay parent in view, peer 2
with the relay parent in view but not eligible. -/
def demo_peers : List PeerInfo := [⟨0, true, true⟩, ⟨1, false, true⟩, ⟨2, true, false⟩]

lemma isKnownLocal_record_local_self (ks : KnowledgeStore) (c v : Nat) (k : StatementKind) :
    (ks.record_local c v k).isKnownLocal c v k = true := by
  by_cases h : ks.isKnownLocal c v k = true
  · simp [KnowledgeStore.record_local, h]
  · simp only [KnowledgeStore.record_local, h]
    simp [KnowledgeStore.isKnownLocal]

lemma record_local_of_known {ks : KnowledgeStore} {c v : Nat} {k : StatementKind}
    (h : ks.isKnownLocal c v k = true) : ks.record_local c v k = ks := by
  simp [KnowledgeStore.record_local, h]

lemma record_local_idem (ks : KnowledgeStore) (c v : Nat) (k : StatementKind) :
    (ks.record_local c v k).record_local c v k = ks.record_local c v k :=
  record_local_of_known (isKnownLocal_record_local_self ks c v k)

lemma record_local_iterate (ks : KnowledgeStore) (c v : Nat) (k : StatementKind) :
    ∀ n : Nat, (fun s => KnowledgeStore.record_local s c v k)^[n + 1] ks = ks.record_local c v k
  | 0 => by simp
  | n + 1 => by
    rw [Function.iterate_succ_apply', record_local_iterate ks c v k n]
    exact record_local_idem ks c v k

/-- C8: recording the same (validator, kind) pair any number of times via
`record_local` yields the same store — hence the same mask — as
recording it exactly once, and recording an already-known pair is a
no-op, not an error. -/
theorem record_local_idempotent (ks : KnowledgeStore) (c v : Nat) (k : StatementKind) :
    (∀ n : Nat, (fun s => KnowledgeStore.record_local s c v k)^[n + 1] ks = ks.record_local c v k)
    ∧ (∀ (n c2 : Nat) (group : List Nat),
        ((fun s => KnowledgeStore.record_local s c v k)^[n + 1] ks).mask_for c2 group
          = (ks.record_local c v k).mask_for c2 group)
    ∧ (ks.isKnownLocal c v k = true → ks.record_local c v k = ks) := by
  refine ⟨record_local_iterate ks c v k, ?_, fun h => record_local_of_known h⟩
  intro n c2 group
  rw [record_local_iterate ks c v k n]

/-- C8 witness: recording validator 0's `Seconded` statement three times
into the empty store equals recording it once, and re-recording the
already-known pair is a no-op. -/
theorem record_local_idempotent_witness :
    (fun s => KnowledgeStore.record_local s 7 0 StatementKind.Seconded)^[3] KnowledgeStore.empty
      = KnowledgeStore.empty.record_local 7 0 StatementKind.Seconded
    ∧ demo_store.isKnownLocal 7 0 StatementKind.Seconded = true
    ∧ demo_store.record_local 7 0 StatementKind.Seconded = demo_store :=
  ⟨(record_local_idempotent KnowledgeStore.empty 7 0 StatementKind.Seconded).1 2,
   by decide,
   (record_local_idempotent demo_store 7 0 StatementKind.Seconded).2.2 (by decide)⟩

lemma maybe_request_of_outstanding {st : SchedulerState} {ks : KnowledgeStore} {c : Nat}
    {group : List Nat} {peer : Nat} {hv : Bool} (h : (peer, c) ∈ st.outstanding) :
    maybe_request st ks c group peer hv = (st, none) := by
  simp [maybe_request, h]

/-- C5: while an outstanding request exists for a (peer, candidate) pair,
a further `maybe_request` call for that pair issues no new request and
leaves the scheduler state unchanged; in particular, right after a call
that issued a request, a repeat call for the same pair produces nothing,
whatever the knowledge store, group or view flag then are. -/
theorem maybe_request_no_duplicate
    (st : SchedulerState) (ks ks2 : KnowledgeStore) (c : Nat) (group group2 : List Nat)
    (peer : Nat) (hv hv2 : Bool)
    (h : (peer, c) ∈ st.outstanding) :
    maybe_request st ks c group peer hv = (st, none)
    ∧ ∀ (st0 st1 : SchedulerState) (req : Nat × AttestedCandidateRequest),
        maybe_request st0 ks c group peer hv = (st1, some req) →
        maybe_request st1 ks2 c group2 peer hv2 = (st1, none) := by
  refine ⟨maybe_request_of_outstanding h, ?_⟩
  intro st0 st1 req hissue
  unfold maybe_request at hissue
  split at hissue
  · have hst1 : st1 = ⟨(peer, c) :: st0.outstanding⟩ := by
      have := congrArg Prod.fst hissue
      simpa using this.symm
    subst hst1
    exact maybe_request_of_outstanding (by simp)
  · simp at hissue

/-- C5 witness: after the first request for (peer 0, candidate 7) is
issued from an empty scheduler state, a repeat call issues nothing. -/
theorem maybe_request_no_duplicate_witness :
    ((0, 7) ∈ (SchedulerState.mk [(0, 7)]).outstanding)
    ∧ maybe_request ⟨[(0, 7)]⟩ demo_store 7 demo_group 0 true = (⟨[(0, 7)]⟩, none)
    ∧ ∀ (st0 st1 : SchedulerState) (req : Nat × AttestedCandidateRequest),
        maybe_request st0 demo_store 7 demo_group 0 true = (st1, some req) →
        maybe_request st1 demo_store 7 demo_group 0 true = (st1, none) :=
  ⟨by decide,
   (maybe_request_no_duplicate ⟨[(0, 7)]⟩ demo_store demo_store 7 demo_group demo_group 0
      true true (by decide)).1,
   (maybe_request_no_duplicate ⟨[(0, 7)]⟩ demo_store demo_store 7 demo_group demo_group 0
      true true (by decide)).2⟩

/-- C6: a response that fails to decode (`none`), or whose candidate
receipt hash differs from the requested candidate hash, is rejected in
full: the outcome is exactly one `malformed-response` cost, an unchanged
Knowledge Store, and no accepted statements — so no statement-level
reputation events are emitted at all. -/
theorem malformed_response_rejected_wholesale
    (ks : KnowledgeStore) (req : RequestCtx) (resp : Option AttestedCandidateResponse)
    (h : ∀ r ∈ resp, r.candidate_receipt_hash ≠ req.candidate_hash) :
    handle_response ks req resp = ⟨ks, [.malformedResponse], []⟩ := by
  cases resp with
  | none => rfl
  | some r =>
    have hne : r.candidate_receipt_hash ≠ req.candidate_hash := h r rfl
    simp [handle_response, hne]

/-- C6 witness: an undecodable response and a response claiming candidate
hash 8 against requested hash 7 are both rejected with a single
`malformed-response` cost and no statement processing. -/
theorem malformed_response_rejected_wholesale_witness :
    (∀ r ∈ (none : Option AttestedCandidateResponse),
        r.candidate_receipt_hash ≠ demo_req.candidate_hash)
    ∧ (∀ r ∈ some (AttestedCandidateResponse.mk 8 0 [demo_statement_b]),
        r.candidate_receipt_hash ≠ demo_req.candidate_hash)
    ∧ handle_response demo_store demo_req none = ⟨demo_store, [.malformedResponse], []⟩
    ∧ handle_response demo_store demo_req (some ⟨8, 0, [demo_statement_b]⟩)
        = ⟨demo_store, [.malformedResponse], []⟩ := by
  refine ⟨(by intro r hr; cases hr), ?_, ?_, ?_⟩
  · intro r hr
    cases hr
    decide
  · exact malformed_response_rejected_wholesale demo_store demo_req none (by intro r hr; cases hr)
  · refine malformed_response_rejected_wholesale demo_store demo_req
      (some ⟨8, 0, [demo_statement_b]⟩) ?_
    intro r hr
    cases hr
    decide

/-- One Knowledge Store extends another: every locally-known entry and
every peer-knowledge entry of the first is present in the second. -/
def SubStore (ks ks2 : KnowledgeStore) : Prop :=
  ks.localKnown ⊆ ks2.localKnown ∧ ks.peerKnown ⊆ ks2.peerKnown

lemma subStore_refl (ks : KnowledgeStore) : SubStore ks ks :=
  ⟨fun _ h => h, fun _ h => h⟩

lemma subStore_trans {a b c : KnowledgeStore} (h1 : SubStore a b) (h2 : SubStore b c) :
    SubStore a c :=
  ⟨fun _ hx => h2.1 (h1.1 hx), fun _ hx => h2.2 (h1.2 hx)⟩

lemma record_local_subStore (ks : KnowledgeStore) (c v : Nat) (k : StatementKind) :
    SubStore ks (ks.record_local c v k) := by
  unfold KnowledgeStore.record_local
  split
  · exact subStore_refl ks
  · exact ⟨List.subset_cons_self _ _, fun x hx => hx⟩

lemma record_peer_subStore (ks : KnowledgeStore) (p c v : Nat) (k : StatementKind) :
    SubStore ks (ks.record_peer p c v k) := by
  unfold KnowledgeStore.record_peer
  split
  · exact subStore_refl ks
  · exact ⟨fun x hx => hx, List.subset_cons_self _ _⟩

lemma process_statement_subStore (req : RequestCtx) (st : ProcState) (s : Statement) :
    SubStore st.store (process_statement req st s).store := by
  unfold process_statement
  split
  · exact subStore_refl _
  · split_ifs
    · exact subStore_refl _
    · exact subStore_refl _
    · exact subStore_refl _
    · exact record_local_subStore _ _ _ _

lemma foldl_process_subStore (req : RequestCtx) :
    ∀ (ss : List Statement) (st : ProcState),
      SubStore st.store ((ss.foldl (process_statement req) st).store)
  | [], _ => subStore_refl _
  | s :: ss, st => by
    rw [List.foldl_cons]
    exact subStore_trans (process_statement_subStore req st s)
      (foldl_process_subStore req ss (process_statement req st s))

lemma handle_response_eq_of_match {ks : KnowledgeStore} {req : RequestCtx}
    {r : AttestedCandidateResponse} (hc : r.candidate_receipt_hash = req.candidate_hash) :
    handle_response ks req (some r)
      = ⟨(r.statements.foldl (process_statement req)
            ⟨ks, StatementFilter.blank req.group.length, [], []⟩).store,
         (r.statements.foldl (process_statement req)
            ⟨ks, StatementFilter.blank req.group.length, [], []⟩).events ++ [.validResponse],
         (r.statements.foldl (process_statement req)
            ⟨ks, StatementFilter.blank req.group.length, [], []⟩).accepted⟩ := by
  simp [handle_response, hc]

lemma handle_response_eq_of_mismatch {ks : KnowledgeStore} {req : RequestCtx}
    {r : AttestedCandidateResponse} (hc : r.candidate_receipt_hash ≠ req.candidate_hash) :
    handle_response ks req (some r) = ⟨ks, [.malformedResponse], []⟩ := by
  simp [handle_response, hc]

lemma handle_response_subStore (ks : KnowledgeStore) (req : RequestCtx)
    (resp : Option AttestedCandidateResponse) :
    SubStore ks (handle_response ks req resp).store := by
  cases resp with
  | none => exact subStore_refl ks
  | some r =>
    by_cases hc : r.candidate_receipt_hash = req.candidate_hash
    · rw [handle_response_eq_of_match hc]
      exact foldl_process_subStore req r.statements
        ⟨ks, StatementFilter.blank req.group.length, [], []⟩
    · rw [handle_response_eq_of_mismatch hc]
      exact subStore_refl ks

lemma foldl_record_peer_subStore (c v : Nat) (k : StatementKind) :
    ∀ (ps : List Nat) (ks : KnowledgeStore),
      SubStore ks (ps.foldl (fun s p => s.record_peer p c v k) ks)
  | [], _ => subStore_refl _
  | p :: ps, ks => by
    rw [List.foldl_cons]
    exact subStore_trans (record_peer_subStore ks p c v k)
      (foldl_record_peer_subStore c v k ps (ks.record_peer p c v k))

lemma forward_subStore (ks : KnowledgeStore) (peers : List PeerInfo) (c v : Nat)
    (k : StatementKind) : SubStore ks (forward ks peers c v k).2 :=
  foldl_record_peer_subStore c v k _ ks

lemma storeOp_subStore (op : StoreOp) (ks : KnowledgeStore) : SubStore ks (op.apply ks) := by
  cases op with
  | recordLocal c v k => exact record_local_subStore ks c v k
  | recordPeer p c v k => exact record_peer_subStore ks p c v k
  | handleResponse req resp => exact handle_response_subStore ks req resp
  | forwardStatement peers c v k => exact forward_subStore ks peers c v k

lemma isKnownLocal_mono {ks ks2 : KnowledgeStore} (h : SubStore ks ks2) {c v : Nat}
    {k : StatementKind} (hk : ks.isKnownLocal c v k = true) : ks2.isKnownLocal c v k = true := by
  simp only [KnowledgeStore.isKnownLocal, decide_eq_true_eq] at hk ⊢
  exact h.1 hk

lemma mask_for_mem_eq (ks : KnowledgeStore) (c : Nat) (group : List Nat) (i : Nat)
    (k : StatementKind) :
    (ks.mask_for c group).mem i k
      = ((group[i]?).map (fun v => ks.isKnownLocal c v k)).getD false := by
  cases k <;> simp [KnowledgeStore.mask_for, StatementFilter.mem, List.getElem?_map]

lemma mask_mem_mono {ks ks2 : KnowledgeStore} (h : SubStore ks ks2) (c : Nat)
    (group : List Nat) (i : Nat) (k : StatementKind)
    (hm : (ks.mask_for c group).mem i k = true) :
    (ks2.mask_for c group).mem i k = true := by
  rw [mask_for_mem_eq] at hm ⊢
  cases hg : group[i]? with
  | none => rw [hg] at hm; simp at hm
  | some v =>
    rw [hg] at hm
    simp only [Option.map_some', Option.getD_some] at hm ⊢
    exact isKnownLocal_mono h hm

/-- C7: for any single store-mutating operation of the core
(`record_local`, `record_peer`, handling a response, forwarding a
statement), the local mask of any candidate is monotonically
non-decreasing — no known bit is ever cleared — and both local-knowledge
and peer-knowledge entries are only ever added, never removed. -/
theorem knowledge_store_monotone
    (op : StoreOp) (ks : KnowledgeStore) (c : Nat) (group : List Nat) (i : Nat)
    (k : StatementKind)
    (h : (ks.mask_for c group).mem i k = true) :
    ((op.apply ks).mask_for c group).mem i k = true
    ∧ ks.localKnown ⊆ (op.apply ks).localKnown
    ∧ ks.peerKnown ⊆ (op.apply ks).peerKnown :=
  ⟨mask_mem_mono (storeOp_subStore op ks) c group i k h,
   (storeOp_subStore op ks).1, (storeOp_subStore op ks).2⟩

/-- C7 witness: handling the duplicate-bearing response preserves the
mask bit recording validator 0's `Seconded` statement. -/
theorem knowledge_store_monotone_witness :
    (demo_store.mask_for 7 demo_group).mem 0 StatementKind.Seconded = true
    ∧ (((StoreOp.handleResponse demo_req (some demo_response)).apply demo_store).mask_for
          7 demo_group).mem 0 StatementKind.Seconded = true
    ∧ demo_store.localKnown
        ⊆ ((StoreOp.handleResponse demo_req (some demo_response)).apply demo_store).localKnown
    ∧ demo_store.peerKnown
        ⊆ ((StoreOp.handleResponse demo_req (some demo_response)).apply demo_store).peerKnown :=
  ⟨by decide,
   knowledge_store_monotone (StoreOp.handleResponse demo_req (some demo_response))
     demo_store 7 demo_group 0 StatementKind.Seconded (by decide)⟩

lemma process_statement_events_shape (req : RequestCtx) (st : ProcState) (s : Statement) :
    ∃ e : ReputationEvent,
      (e = .unrequestedResponseStatement ∨ e = .invalidSignature ∨ e = .validStatement)
      ∧ (process_statement req st s).events = st.events ++ [e] := by
  unfold process_statement
  split
  · exact ⟨_, Or.inl rfl, rfl⟩
  · split_ifs
    · exact ⟨_, Or.inl rfl, rfl⟩
    · exact ⟨_, Or.inl rfl, rfl⟩
    · exact ⟨_, Or.inr (Or.inl rfl), rfl⟩
    · exact ⟨_, Or.inr (Or.inr rfl), rfl⟩

lemma foldl_process_count (req : RequestCtx) (e : ReputationEvent)
    (he1 : e ≠ .unrequestedResponseStatement) (he2 : e ≠ .invalidSignature)
    (he3 : e ≠ .validStatement) :
    ∀ (ss : List Statement) (st : ProcState),
      ((ss.foldl (process_statement req) st).events).count e = st.events.count e
  | [], _ => rfl
  | s :: ss, st => by
    rw [List.foldl_cons,
      foldl_process_count req e he1 he2 he3 ss (process_statement req st s)]
    obtain ⟨e2, hshape, hev⟩ := process_statement_events_shape req st s
    have hz : ([e2]).count e = 0 := by
      refine List.count_eq_zero.mpr ?_
      rcases hshape with h | h | h <;> subst h <;> simp [he1, he2, he3]
    rw [hev, List.count_append, hz, Nat.add_zero]

/-- C4: a decodable response with the matching candidate receipt hash
earns exactly one `valid-response` benefit — whatever happened to the
individual statements in it — and that benefit is the last reputation
event emitted for the response, after all per-statement events. -/
theorem response_completion_benefit
    (ks : KnowledgeStore) (req : RequestCtx) (r : AttestedCandidateResponse)
    (h : r.candidate_receipt_hash = req.candidate_hash) :
    ((handle_response ks req (some r)).events).count .validResponse = 1
    ∧ ((handle_response ks req (some r)).events).getLast? = some .validResponse := by
  rw [handle_response_eq_of_match h]
  constructor
  · rw [List.count_append,
      foldl_process_count req ReputationEvent.validResponse (by decide) (by decide) (by decide)
        r.statements ⟨ks, StatementFilter.blank req.group.length, [], []⟩]
    rfl
  · simp

/-- C4 witness: the duplicate-bearing demo response, in which one
statement was rejected, still earns exactly one trailing
`valid-response` benefit. -/
theorem response_completion_benefit_witness :
    demo_response.candidate_receipt_hash = demo_req.candidate_hash
    ∧ ((handle_response demo_store demo_req (some demo_response)).events).count
        ReputationEvent.validResponse = 1
    ∧ ((handle_response demo_store demo_req (some demo_response)).events).getLast?
        = some ReputationEvent.validResponse :=
  ⟨by decide, response_completion_benefit demo_store demo_req demo_response (by decide)⟩

lemma blank_mem_false (n i : Nat) (k : StatementKind) :
    (StatementFilter.blank n).mem i k = false := by
  have hrep : ((List.replicate n false)[i]?).getD false = false := by
    cases h : (List.replicate n false)[i]? with
    | none => rfl
    | some b =>
      have hb := List.getElem?_mem h
      simp [List.eq_of_mem_replicate hb]
  cases k
  · exact hrep
  · exact hrep

lemma set_mem_self (f : StatementFilter) (i : Nat) (k : StatementKind)
    (hs : i < f.seconded_in_group.length) (hv : i < f.validated_in_group.length) :
    (f.set i k).mem i k = true := by
  cases k
  · show ((f.seconded_in_group.set i true)[i]?).getD false = true
    rw [List.getElem?_set_eq_of_lt _ hs]
    rfl
  · show ((f.validated_in_group.set i true)[i]?).getD false = true
    rw [List.getElem?_set_eq_of_lt _ hv]
    rfl

lemma process_statement_accept {req : RequestCtx} {st : ProcState} {s : Statement} {i : Nat}
    (hfind : req.group.findIdx? (fun v => v == s.validator) = some i)
    (hrecv : st.received.mem i s.kind = false)
    (hmask : req.mask.mem i s.kind = false)
    (hsig : s.sig_valid = true) :
    process_statement req st s
      = ⟨st.store.record_local req.candidate_hash s.validator s.kind,
         st.received.set i s.kind, st.events ++ [.validStatement], st.accepted ++ [s]⟩ := by
  unfold process_statement
  rw [hfind]
  simp [hrecv, hmask, hsig]

lemma process_statement_already_received {req : RequestCtx} {st : ProcState} {s : Statement}
    {i : Nat} (hfind : req.group.findIdx? (fun v => v == s.validator) = some i)
    (hrecv : st.received.mem i s.kind = true) :
    process_statement req st s
      = { st with events := st.events ++ [.unrequestedResponseStatement] } := by
  unfold process_statement
  rw [hfind]
  simp [hrecv]

/-- C1 (amended): in a response carrying the same statement twice, the
second occurrence yields exactly one `unrequested-response-statement`
cost — the code classifies within-response duplicates through the
received-statement filter and reuses the unrequested cost; there is no
separate `duplicate-statement` cost — it is never inserted into the
Knowledge Store (the store gains the entry exactly once), and the
response is not rejected wholesale: the first occurrence is accepted and
the `valid-response` benefit still concludes the exchange. -/
theorem response_duplicate_single_unrequested_cost
    (ks : KnowledgeStore) (req : RequestCtx) (s : Statement) (pvd i : Nat)
    (hfind : req.group.findIdx? (fun v => v == s.validator) = some i)
    (hlen : i < req.group.length)
    (hmask : req.mask.mem i s.kind = false)
    (hsig : s.sig_valid = true) :
    handle_response ks req (some ⟨req.candidate_hash, pvd, [s, s]⟩)
      = ⟨ks.record_local req.candidate_hash s.validator s.kind,
         [.validStatement, .unrequestedResponseStatement, .validResponse], [s]⟩ := by
  have hrecv2 : ((StatementFilter.blank req.group.length).set i s.kind).mem i s.kind = true := by
    refine set_mem_self _ i s.kind ?_ ?_ <;>
      simpa [StatementFilter.blank] using hlen
  have h1 : process_statement req ⟨ks, StatementFilter.blank req.group.length, [], []⟩ s
      = ⟨ks.record_local req.candidate_hash s.validator s.kind,
         (StatementFilter.blank req.group.length).set i s.kind, [.validStatement], [s]⟩ := by
    rw [process_statement_accept hfind (blank_mem_false _ _ _) hmask hsig]
    rfl
  have h2 : process_statement req
      ⟨ks.record_local req.candidate_hash s.validator s.kind,
       (StatementFilter.blank req.group.length).set i s.kind, [.validStatement], [s]⟩ s
      = ⟨ks.record_local req.candidate_hash s.validator s.kind,
         (StatementFilter.blank req.group.length).set i s.kind,
         [.validStatement, .unrequestedResponseStatement], [s]⟩ := by
    rw [process_statement_already_received hfind hrecv2]
    rfl
  rw [handle_response_eq_of_match rfl]
  rw [show ((⟨req.candidate_hash, pvd, [s, s]⟩ : AttestedCandidateResponse).statements)
      = [s, s] from rfl]
  rw [List.foldl_cons, h1, List.foldl_cons, h2, List.foldl_nil]
  rfl

/-- C1 counterexample: on the test's duplicate-bearing response, the
second occurrence is charged `unrequested-response-statement`, and no
`duplicate-statement` event is emitted at all, contradicting the claim
that the second occurrence yields a duplicate-statement cost rather than
an unrequested-response-statement cost. -/
theorem response_duplicate_cost_counterexample :
    ((handle_response demo_store demo_req (some demo_response)).events).count
        ReputationEvent.duplicateStatement = 0
    ∧ ((handle_response demo_store demo_req (some demo_response)).events).count
        ReputationEvent.unrequestedResponseStatement = 1
    ∧ (handle_response demo_store demo_req (some demo_response)).events
        = [.validStatement, .unrequestedResponseStatement, .validResponse] := by
  decide

/-- C1 witness: the amended theorem instantiated on the test scenario:
validator 1's `Seconded` statement sent twice by peer 0. -/
theorem response_duplicate_single_unrequested_cost_witness :
    demo_req.group.findIdx? (fun v => v == demo_statement_b.validator) = some 1
    ∧ 1 < demo_req.group.length
    ∧ demo_req.mask.mem 1 demo_statement_b.kind = false
    ∧ demo_statement_b.sig_valid = true
    ∧ handle_response demo_store demo_req (some ⟨demo_req.candidate_hash, 0,
          [demo_statement_b, demo_statement_b]⟩)
        = ⟨demo_store.record_local demo_req.candidate_hash demo_statement_b.validator
             demo_statement_b.kind,
           [.validStatement, .unrequestedResponseStatement, .validResponse],
           [demo_statement_b]⟩ :=
  ⟨by decide, by decide, by decide, by decide,
   response_duplicate_single_unrequested_cost demo_store demo_req demo_statement_b 0 1
     (by decide) (by decide) (by decide) (by decide)⟩

/-- C2 (amended): a statement accepted from a response earns the plain
`valid-statement` benefit even when its statement-identity is being seen
locally for the first time from any source; the response path never
emits the `first-valid-statement` benefit (which belongs to the direct
gossip path). -/
theorem response_first_seen_plain_benefit
    (ks : KnowledgeStore) (req : RequestCtx) (s : Statement) (pvd i : Nat)
    (hfind : req.group.findIdx? (fun v => v == s.validator) = some i)
    (hmask : req.mask.mem i s.kind = false)
    (hsig : s.sig_valid = true)
    (_hfirst : ks.isKnownLocal req.candidate_hash s.validator s.kind = false) :
    (handle_response ks req (some ⟨req.candidate_hash, pvd, [s]⟩)).events
      = [.validStatement, .validResponse]
    ∧ ∀ resp : Option AttestedCandidateResponse,
        ((handle_response ks req resp).events).count .firstValidStatement = 0 := by
  constructor
  · rw [handle_response_eq_of_match rfl]
    rw [show ((⟨req.candidate_hash, pvd, [s]⟩ : AttestedCandidateResponse).statements)
        = [s] from rfl]
    rw [List.foldl_cons, process_statement_accept hfind (blank_mem_false _ _ _) hmask hsig,
      List.foldl_nil]
    rfl
  · intro resp
    cases resp with
    | none => rfl
    | some r =>
      by_cases hc : r.candidate_receipt_hash = req.candidate_hash
      · rw [handle_response_eq_of_match hc, List.count_append,
          foldl_process_count req ReputationEvent.firstValidStatement (by decide) (by decide)
            (by decide) r.statements ⟨ks, StatementFilter.blank req.group.length, [], []⟩]
        rfl
      · rw [handle_response_eq_of_mismatch hc]
        rfl

/-- C2 counterexample: validator 1's statement is seen locally for the
first time from peer 0's response, yet the benefit emitted is the plain
`valid-statement`, and no `first-valid-statement` benefit occurs,
contradicting the claim. -/
theorem response_first_valid_benefit_counterexample :
    demo_store.isKnownLocal 7 1 StatementKind.Seconded = false
    ∧ (handle_response demo_store demo_req (some ⟨7, 0, [demo_statement_b]⟩)).events
        = [.validStatement, .validResponse]
    ∧ ((handle_response demo_store demo_req (some ⟨7, 0, [demo_statement_b]⟩)).events).count
        ReputationEvent.firstValidStatement = 0 := by
  decide

/-- C2 witness: the amended theorem instantiated on the test scenario:
validator 1's first-seen `Seconded` statement accepted from peer 0's
response. -/
theorem response_first_seen_plain_benefit_witness :
    demo_req.group.findIdx? (fun v => v == demo_statement_b.validator) = some 1
    ∧ demo_req.mask.mem 1 demo_statement_b.kind = false
    ∧ demo_statement_b.sig_valid = true
    ∧ demo_store.isKnownLocal demo_req.candidate_hash demo_statement_b.validator
        demo_statement_b.kind = false
    ∧ ((handle_response demo_store demo_req (some ⟨demo_req.candidate_hash, 0,
          [demo_statement_b]⟩)).events = [.validStatement, .validResponse]
        ∧ ∀ resp : Option AttestedCandidateResponse,
            ((handle_response demo_store demo_req resp).events).count
              ReputationEvent.firstValidStatement = 0) :=
  ⟨by decide, by decide, by decide, by decide,
   response_first_seen_plain_benefit demo_store demo_req demo_statement_b 0 1
     (by decide) (by decide) (by decide) (by decide)⟩

lemma is_known_by_peer_record_self (ks : KnowledgeStore) (p c v : Nat) (k : StatementKind) :
    (ks.record_peer p c v k).is_known_by_peer p c v k = true := by
  by_cases h : ks.is_known_by_peer p c v k = true
  · simp [KnowledgeStore.record_peer, h]
  · simp only [KnowledgeStore.record_peer, h]
    simp [KnowledgeStore.is_known_by_peer]

lemma is_known_by_peer_mono {ks ks2 : KnowledgeStore} (h : SubStore ks ks2) {p c v : Nat}
    {k : StatementKind} (hk : ks.is_known_by_peer p c v k = true) :
    ks2.is_known_by_peer p c v k = true := by
  simp only [KnowledgeStore.is_known_by_peer, decide_eq_true_eq] at hk ⊢
  exact h.2 hk

lemma foldl_record_peer_known (c v : Nat) (k : StatementKind) :
    ∀ (ps : List Nat) (ks : KnowledgeStore) (q : Nat), q ∈ ps →
      (ps.foldl (fun s p => s.record_peer p c v k) ks).is_known_by_peer q c v k = true
  | [], _, _, h => absurd h (List.not_mem_nil _)
  | p :: ps, ks, q, h => by
    rw [List.foldl_cons]
    rcases List.mem_cons.mp h with rfl | hq
    · exact is_known_by_peer_mono
        (foldl_record_peer_subStore c v k ps (ks.record_peer q c v k))
        (is_known_by_peer_record_self ks q c v k)
    · exact foldl_record_peer_known c v k ps (ks.record_peer p c v k) q hq

lemma forward_fst (ks : KnowledgeStore) (peers : List PeerInfo) (c v : Nat)
    (k : StatementKind) :
    (forward ks peers c v k).1
      = (peers.filter (fun p =>
          p.has_relay_parent_in_view && p.eligible && !(ks.is_known_by_peer p.peer c v k))).map
            (fun p => p.peer) := rfl

lemma forward_mem_iff {ks : KnowledgeStore} {peers : List PeerInfo} {c v : Nat}
    {k : StatementKind} {pi : PeerInfo}
    (hnd : (peers.map (fun p => p.peer)).Nodup) (hp : pi ∈ peers) :
    pi.peer ∈ (forward ks peers c v k).1
      ↔ (pi.has_relay_parent_in_view = true ∧ pi.eligible = true
          ∧ ks.is_known_by_peer pi.peer c v k = false) := by
  rw [forward_fst]
  constructor
  · intro hmem
    obtain ⟨q, hqf, hqe⟩ := List.mem_map.mp hmem
    obtain ⟨hqp, hqc⟩ := List.mem_filter.mp hqf
    have hq : q = pi := List.inj_on_of_nodup_map hnd hqp hp hqe
    subst hq
    simp only [Bool.and_eq_true, Bool.not_eq_true'] at hqc
    exact ⟨hqc.1.1, hqc.1.2, hqc.2⟩
  · intro hcond
    refine List.mem_map.mpr ⟨pi, List.mem_filter.mpr ⟨hp, ?_⟩, rfl⟩
    simp [hcond.1, hcond.2.1, hcond.2.2]

lemma forward_marks_known (ks : KnowledgeStore) (peers : List PeerInfo) (c v : Nat)
    (k : StatementKind) :
    ∀ q ∈ (forward ks peers c v k).1,
      ((forward ks peers c v k).2).is_known_by_peer q c v k = true := by
  intro q hq
  exact foldl_record_peer_known c v k _ ks q hq

lemma forward_no_resend (ks : KnowledgeStore) (peers : List PeerInfo) (c v : Nat)
    (k : StatementKind) :
    ∀ q ∈ (forward ks peers c v k).1,
      q ∉ (forward ((forward ks peers c v k).2) peers c v k).1 := by
  intro q hq hq2
  have hknown := forward_marks_known ks peers c v k q hq
  rw [forward_fst] at hq2
  obtain ⟨r, hrf, hre⟩ := List.mem_map.mp hq2
  obtain ⟨_, hrc⟩ := List.mem_filter.mp hrf
  simp only [Bool.and_eq_true, Bool.not_eq_true'] at hrc
  have hfalse := hrc.2
  rw [hre] at hfalse
  simp [hknown] at hfalse

/-- C3 (amended): the rebroadcast recipient set is exactly the connected
peers that have the relay parent in view, do not already know the
statement according to the Knowledge Store, and are group/topology
eligible; after sending, the recipients are marked known-by-peer, so the
statement is never re-sent to them.  However, the peer from whose
response the statement was just accepted is not excluded: acceptance
records the statement as locally known but not as known by the
responding peer, so that peer can be (and in the test is) among the
recipients. -/
theorem forward_recipient_set
    (ks : KnowledgeStore) (peers : List PeerInfo) (c v : Nat) (k : StatementKind)
    (pi : PeerInfo)
    (hnd : (peers.map (fun p => p.peer)).Nodup) (hp : pi ∈ peers) :
    (pi.peer ∈ (forward ks peers c v k).1
      ↔ (pi.has_relay_parent_in_view = true ∧ pi.eligible = true
          ∧ ks.is_known_by_peer pi.peer c v k = false))
    ∧ (∀ q ∈ (forward ks peers c v k).1,
        ((forward ks peers c v k).2).is_known_by_peer q c v k = true)
    ∧ (∀ q ∈ (forward ks peers c v k).1,
        q ∉ (forward ((forward ks peers c v k).2) peers c v k).1) :=
  ⟨forward_mem_iff hnd hp, forward_marks_known ks peers c v k,
   forward_no_resend ks peers c v k⟩

/-- C3 counterexample: after accepting validator 1's statement from
peer 0's response, the rebroadcast recipient set is exactly `[0]` — the
responding peer itself — contradicting the claim that the peer from
whose response the statement was just accepted is excluded. -/
theorem forward_responder_not_excluded_counterexample :
    (forward demo_store_after demo_peers 7 1 StatementKind.Seconded).1 = [0]
    ∧ 0 ∈ (forward demo_store_after demo_peers 7 1 StatementKind.Seconded).1 := by
  decide

/-- C3 witness: the amended characterisation instantiated on the test's
peer set for peer 0 after the demo response was handled. -/
theorem forward_recipient_set_witness :
    (demo_peers.map (fun p => p.peer)).Nodup
    ∧ (⟨0, true, true⟩ : PeerInfo) ∈ demo_peers
    ∧ (((⟨0, true, true⟩ : PeerInfo).peer
          ∈ (forward demo_store_after demo_peers 7 1 StatementKind.Seconded).1
        ↔ ((⟨0, true, true⟩ : PeerInfo).has_relay_parent_in_view = true
            ∧ (⟨0, true, true⟩ : PeerInfo).eligible = true
            ∧ demo_store_after.is_known_by_peer (⟨0, true, true⟩ : PeerInfo).peer 7 1
                StatementKind.Seconded = false))
      ∧ (∀ q ∈ (forward demo_store_after demo_peers 7 1 StatementKind.Seconded).1,
          ((forward demo_store_after demo_peers 7 1 StatementKind.Seconded).2).is_known_by_peer
            q 7 1 StatementKind.Seconded = true)
      ∧ (∀ q ∈ (forward demo_store_after demo_peers 7 1 StatementKind.Seconded).1,
          q ∉ (forward ((forward demo_store_after demo_peers 7 1 StatementKind.Seconded).2)
                demo_peers 7 1 StatementKind.Seconded).1)) :=
  ⟨by decide, by decide,
   forward_recipient_set demo_store_after demo_peers 7 1 StatementKind.Seconded
     ⟨0, true, true⟩ (by decide) (by decide)⟩

end StatementDistribution

namespace XcmBarrier

/-- The reason why a given XCM is not permitted to execute, from
`xcm/xcm-executor/src/traits/should_execute.rs`. -/
inductive RejectReason where
  | InsufficientCredit
  | NoRulesMatched
  | OriginMultiLocationTooLong
  | Suspended
  | UnexpectedMessageFormat
  | UnexpectedResponse
  | UntrustedOrigin
  | WeightLimitTooLow
deriving DecidableEq, Repr

/-- The state a barrier element may mutate through its `&mut` arguments:
the instruction sequence and the weight credit.  Instructions are kept
opaque as numeric codes; weights are `Nat`. -/
structure MutState where
  instructions : List Nat
  weight_credit : Nat
deriving DecidableEq, Repr

/-- One element of a `ShouldExecute` tuple: given the origin, the mutable
state and the weight estimate, it either accepts (`Except.ok`) or
rejects with a `RejectReason`, in both cases returning the possibly
mutated state. -/
def Barrier : Type :=
  Nat → MutState → Nat → Except RejectReason Unit × MutState

/-- The tuple implementation of `ShouldExecute::should_execute`: each
element is tried in tuple order with the threaded mutable state; the
first `Ok` stops the iteration and is returned; if every element
rejects, the per-element errors are only logged and
`Err(RejectReason::NoRulesMatched)` is returned. -/
def tuple_should_execute : List Barrier → Nat → MutState → Nat → Except RejectReason Unit × MutState
  | [], _, st, _ => (Except.error RejectReason.NoRulesMatched, st)
  | b :: bs, o, st, mw =>
    match b o st mw with
    | (Except.ok _, st1) => (Except.ok (), st1)
    | (Except.error _, st1) => tuple_should_execute bs o st1 mw

/-- `run_rejects bs o st mw = some st'` when every element of `bs`, tried
in order with the threaded state, rejects; `st'` is the state after the
last element. -/
def run_rejects : List Barrier → Nat → MutState → Nat → Option MutState
  | [], _, st, _ => some st
  | b :: bs, o, st, mw =>
    match b o st mw with
    | (Except.ok _, _) => none
    | (Except.error _, st1) => run_rejects bs o st1 mw

/-- A barrier element that accepts every message unchanged. -/
def barrier_accept : Barrier := fun _ st _ => (Except.ok (), st)

/-- A barrier element that rejects every message as untrusted. -/
def barrier_untrusted : Barrier := fun _ st _ => (Except.error RejectReason.UntrustedOrigin, st)

/-- A barrier element that rejects every message as suspended. -/
def barrier_suspended : Barrier := fun _ st _ => (Except.error RejectReason.Suspended, st)

/-- A sample mutable state for concrete instantiations. -/
def mst0 : MutState := ⟨[1, 2], 5⟩

lemma tuple_first_ok {b : Barrier} {bs : List Barrier} {o mw : Nat} {st st1 : MutState}
    {u : Unit} (h : b o st mw = (Except.ok u, st1)) :
    tuple_should_execute (b :: bs) o st mw = (Except.ok (), st1) := by
  simp [tuple_should_execute, h]

lemma tuple_skip_rejects {o mw : Nat} :
    ∀ (pre bs : List Barrier) (st stm : MutState),
      run_rejects pre o st mw = some stm →
      tuple_should_execute (pre ++ bs) o st mw = tuple_should_execute bs o stm mw := by
  intro pre
  induction pre with
  | nil =>
    intro bs st stm h
    simp [run_rejects] at h
    simp [h]
  | cons b pre ih =>
    intro bs st stm h
    unfold run_rejects at h
    rcases hb : b o st mw with ⟨res, st1⟩
    rw [hb] at h
    cases res with
    | ok u => simp at h
    | error e =>
      have step : tuple_should_execute (b :: (pre ++ bs)) o st mw
          = tuple_should_execute (pre ++ bs) o st1 mw := by
        simp [tuple_should_execute, hb]
      rw [List.cons_append, step]
      exact ih bs st1 stm h

lemma tuple_all_reject {o mw : Nat} :
    ∀ (bs : List Barrier) (st stf : MutState),
      run_rejects bs o st mw = some stf →
      tuple_should_execute bs o st mw = (Except.error RejectReason.NoRulesMatched, stf) := by
  intro bs
  induction bs with
  | nil =>
    intro st stf h
    simp [run_rejects] at h
    simp [tuple_should_execute, h]
  | cons b bs ih =>
    intro st stf h
    unfold run_rejects at h
    rcases hb : b o st mw with ⟨res, st1⟩
    rw [hb] at h
    cases res with
    | ok u => simp at h
    | error e =>
      have step : tuple_should_execute (b :: bs) o st mw
          = tuple_should_execute bs o st1 mw := by
        simp [tuple_should_execute, hb]
      rw [step]
      exact ih st1 stf h

lemma tuple_result_ok_or_noRulesMatched {o mw : Nat} :
    ∀ (bs : List Barrier) (st : MutState),
      (tuple_should_execute bs o st mw).1 = Except.ok ()
      ∨ (tuple_should_execute bs o st mw).1 = Except.error RejectReason.NoRulesMatched := by
  intro bs
  induction bs with
  | nil => intro st; simp [tuple_should_execute]
  | cons b bs ih =>
    intro st
    rcases hb : b o st mw with ⟨res, st1⟩
    cases res with
    | ok u => simp [tuple_should_execute, hb]
    | error e =>
      have step : tuple_should_execute (b :: bs) o st mw
          = tuple_should_execute bs o st1 mw := by
        simp [tuple_should_execute, hb]
      rw [step]
      exact ih st1

/-- C9: in a tuple-composed `ShouldExecute` barrier, the elements are
tried in tuple order with the threaded mutable state; evaluation stops
at the first element that returns `Ok`, whose success (and resulting
state) is the composite result; the elements after the first accepting
one are not consulted (any replacement of them leaves the composite
result unchanged); and if every element rejects, the composite returns
an error. -/
theorem shouldExecute_tuple_first_ok_short_circuits
    (pre post post' : List XcmBarrier.Barrier) (b : XcmBarrier.Barrier) (o mw : Nat)
    (st stm st2 : XcmBarrier.MutState) (u : Unit)
    (hpre : run_rejects pre o st mw = some stm)
    (hb : b o stm mw = (Except.ok u, st2)) :
    tuple_should_execute (pre ++ b :: post) o st mw = (Except.ok (), st2)
    ∧ tuple_should_execute (pre ++ b :: post) o st mw
        = tuple_should_execute (pre ++ b :: post') o st mw
    ∧ ∀ (bs : List XcmBarrier.Barrier) (stf : XcmBarrier.MutState),
        run_rejects bs o st mw = some stf →
        ∃ e : RejectReason, (tuple_should_execute bs o st mw).1 = Except.error e := by
  refine ⟨?_, ?_, ?_⟩
  · rw [tuple_skip_rejects pre (b :: post) st stm hpre]
    exact tuple_first_ok hb
  · rw [tuple_skip_rejects pre (b :: post) st stm hpre,
      tuple_skip_rejects pre (b :: post') st stm hpre,
      tuple_first_ok hb, tuple_first_ok hb]
  · intro bs stf h
    exact ⟨RejectReason.NoRulesMatched, by rw [tuple_all_reject bs st stf h]⟩

/-- C9 witness: a rejecting element followed by an accepting element and
a trailing rejecting element; the composite accepts, the trailing
element is irrelevant, and an all-rejecting chain errors. -/
theorem shouldExecute_tuple_first_ok_short_circuits_witness :
    run_rejects [barrier_untrusted] 0 mst0 3 = some mst0
    ∧ barrier_accept 0 mst0 3 = (Except.ok (), mst0)
    ∧ (tuple_should_execute ([barrier_untrusted] ++ barrier_accept :: [barrier_suspended]) 0 mst0 3
          = (Except.ok (), mst0)
        ∧ tuple_should_execute ([barrier_untrusted] ++ barrier_accept :: [barrier_suspended]) 0 mst0 3
            = tuple_should_execute ([barrier_untrusted] ++ barrier_accept :: []) 0 mst0 3
        ∧ ∀ (bs : List XcmBarrier.Barrier) (stf : XcmBarrier.MutState),
            run_rejects bs 0 mst0 3 = some stf →
            ∃ e : RejectReason, (tuple_should_execute bs 0 mst0 3).1 = Except.error e) :=
  ⟨rfl, rfl,
    shouldExecute_tuple_first_ok_short_circuits [barrier_untrusted] [barrier_suspended] []
      barrier_accept 0 3 mst0 mst0 mst0 () rfl rfl⟩

/-- C10: whenever every element of a tuple-composed `ShouldExecute`
barrier rejects, the composite returns `Err(NoRulesMatched)` with the
threaded final state, regardless of the individual rejection reasons;
moreover the composite can only ever return `Ok` or
`Err(NoRulesMatched)`, so per-element reasons are never propagated to
the caller. -/
theorem shouldExecute_tuple_all_reject_noRulesMatched
    (bs : List XcmBarrier.Barrier) (o mw : Nat) (st stf : XcmBarrier.MutState)
    (h : run_rejects bs o st mw = some stf) :
    tuple_should_execute bs o st mw = (Except.error RejectReason.NoRulesMatched, stf)
    ∧ ∀ (cs : List XcmBarrier.Barrier) (st2 : XcmBarrier.MutState),
        (tuple_should_execute cs o st2 mw).1 = Except.ok ()
        ∨ (tuple_should_execute cs o st2 mw).1 = Except.error RejectReason.NoRulesMatched :=
  ⟨tuple_all_reject bs st stf h, fun cs st2 => tuple_result_ok_or_noRulesMatched cs st2⟩

/-- C10 witness: two elements rejecting with distinct reasons
(`UntrustedOrigin`, `Suspended`); the composite reports
`NoRulesMatched`. -/
theorem shouldExecute_tuple_all_reject_noRulesMatched_witness :
    run_rejects [barrier_untrusted, barrier_suspended] 0 mst0 3 = some mst0
    ∧ (tuple_should_execute [barrier_untrusted, barrier_suspended] 0 mst0 3
          = (Except.error RejectReason.NoRulesMatched, mst0)
        ∧ ∀ (cs : List XcmBarrier.Barrier) (st2 : XcmBarrier.MutState),
            (tuple_should_execute cs 0 st2 3).1 = Except.ok ()
            ∨ (tuple_should_execute cs 0 st2 3).1 = Except.error RejectReason.NoRulesMatched) :=
  ⟨rfl, shouldExecute_tuple_all_reject_noRulesMatched
    [barrier_untrusted, barrier_suspended] 0 3 mst0 mst0 rfl⟩

end XcmBarrier
